import Mathlib

/-!
Verification of the tool-inventory web application (`src/app.py`).

The application is a Flask CRUD app over a `Tool` table and an append-only
`Event` table.  This file gives a shallow embedding of the data model and of
the request handlers that the specification's claims are about
(`tool_new`, `tool_edit`, `tool_checkout`, `tool_return`, `index`,
`allowed_file`), and proves or refutes the claims against it.

Modelling conventions:
  - database rows become Lean structures; autogenerated integer primary keys
    are passed in as parameters (`toolId`) or omitted where no claim mentions
    them (the `Event.id` column);
  - `datetime.utcnow()` values become `Nat` parameters (`now`) and the
    formatted strings derived from them become `String` parameters
    (`today`, `ts`);
  - each handler becomes a pure function from the current state and the
    request data to the next state; the per-tool state is the tool row plus
    the list of its events in insertion order (append at the tail);
  - Python's falsiness of the empty string is modelled by comparison
    with `""`.
-/

namespace ToolApp

/-- Python's `str.strip()`: remove leading and trailing whitespace. -/
def strip (s : String) : String :=
  String.mk (((s.toList.dropWhile Char.isWhitespace).reverse.dropWhile Char.isWhitespace).reverse)

/-- ASCII lower-casing of a string, character by character.  This models both
Python's `.lower()` on file extensions (which are ASCII here) and SQLite's
ASCII-only case folding used by `LIKE`/`ilike`. -/
def lowerStr (s : String) : String :=
  String.mk (s.toList.map Char.toLower)

/-- Row of the `Tool` table (`class Tool(db.Model)` in `src/app.py`). -/
structure Tool where
  id : Nat
  name : String
  description : String
  category : String
  serial_no : String
  photo_path : String
  holder : String
  checkout_date : String
  qr_path : String
  created_at : Nat
deriving DecidableEq, Repr

/-- Row of the `Event` table (`class Event(db.Model)` in `src/app.py`).
The autogenerated `id` column is not modelled; no claim mentions it. -/
structure Event where
  tool_id : Nat
  type : String
  person : String
  when : Nat
  note : String
deriving DecidableEq, Repr

/-- The persistent state relevant to a single tool: its row and the list of
its events, oldest first (`db.session.add` appends). -/
structure ToolState where
  tool : Tool
  events : List Event
deriving DecidableEq, Repr

/-- The `ALLOWED_EXT` set of `src/app.py`. -/
def ALLOWED_EXT : List String := ["png", "jpg", "jpeg", "gif", "webp"]

/-- `allowed_file` of `src/app.py`:
`"." in filename and filename.rsplit(".", 1)[1].lower() in ALLOWED_EXT`.
`rsplit(".", 1)[1]` is the part of the filename after its last dot. -/
def allowed_file (filename : String) : Bool :=
  let cs := filename.toList
  cs.contains '.' &&
    ALLOWED_EXT.contains (lowerStr (String.mk ((cs.reverse.takeWhile (fun c => c ≠ '.')).reverse)))

/-- Werkzeug's `secure_filename` (external library); modelled as the identity
because no claim depends on the exact saved file name, only on whether a file
is saved at all. -/
def secure_filename (s : String) : String := s

/-- Path stored for a saved upload: `f"/uploads/{ts}_{fname}"` where `ts` is
the `%Y%m%d%H%M%S` timestamp string. -/
def savedPhotoPath (ts fname : String) : String :=
  "/uploads/" ++ ts ++ "_" ++ fname

/-- The shared photo-upload step of `tool_new` and `tool_edit`:
`if photo_file and allowed_file(photo_file.filename): ... save ...`.
`photo` is the uploaded file's filename, when a file part is present.
A Werkzeug `FileStorage` is falsy exactly when its filename is empty, so the
guard is `filename nonempty and allowed`.  Returns the stored path when the
file is saved, `none` otherwise. -/
def photoUpload (photo : Option String) (ts : String) : Option String :=
  match photo with
  | some f => if (f != "") && allowed_file f then some (savedPhotoPath ts (secure_filename f)) else none
  | none => none

/-- `request.form.get(key, dflt)`: the first value bound to `key`, or `dflt`
when the key is absent.  The form is an association list. -/
def formGet (form : List (String × String)) (key dflt : String) : String :=
  match form.find? (fun kv => kv.fst == key) with
  | some kv => kv.snd
  | none => dflt

/-- The POST branch of `tool_new` (`src/app.py` lines 133-158): reads and
strips the four text fields, saves an allowed upload, inserts the tool (all
unset columns take their defaults: empty `holder`, `checkout_date`,
`qr_path`), and logs a `create` event.  `toolId` is the autogenerated primary
key and `now` the insertion time. -/
def tool_new (form : List (String × String)) (photo : Option String) (ts : String)
    (toolId : Nat) (now : Nat) : ToolState :=
  let nm := strip (formGet form "name" "")
  let desc := strip (formGet form "description" "")
  let cat := strip (formGet form "category" "")
  let ser := strip (formGet form "serial_no" "")
  let pp := (photoUpload photo ts).getD ""
  { tool := { id := toolId, name := nm, description := desc, category := cat,
              serial_no := ser, photo_path := pp, holder := "", checkout_date := "",
              qr_path := "", created_at := now },
    events := [{ tool_id := toolId, type := "create", person := "", when := now,
                 note := "Dodano narzędzie" }] }

/-- The POST branch of `tool_edit` (`src/app.py` lines 173-191): each text
field is set to `request.form.get(key, current value)` (no stripping), an
allowed upload replaces `photo_path`, and an `edit` event is appended. -/
def tool_edit (st : ToolState) (form : List (String × String)) (photo : Option String)
    (ts : String) (now : Nat) : ToolState :=
  let t0 := st.tool
  let t1 := { t0 with
    name := formGet form "name" t0.name,
    description := formGet form "description" t0.description,
    category := formGet form "category" t0.category,
    serial_no := formGet form "serial_no" t0.serial_no }
  let t2 := match photoUpload photo ts with
    | some p => { t1 with photo_path := p }
    | none => t1
  { tool := t2,
    events := st.events ++ [{ tool_id := t0.id, type := "edit", person := "", when := now,
                              note := "Edycja karty" }] }

/-- `tool_checkout` (`src/app.py` lines 197-206): strips the person, resolves
the date (`request.form.get('date','').strip() or utcnow().strftime('%Y-%m-%d')`),
overwrites `holder` and `checkout_date` unconditionally, and appends a
`checkout` event with note `f"Wydano {date}"`.  `today` is the formatted
current date. -/
def tool_checkout (st : ToolState) (personForm dateForm today : String) (now : Nat) :
    ToolState :=
  let person := strip personForm
  let date := if strip dateForm = "" then today else strip dateForm
  { tool := { st.tool with holder := person, checkout_date := date },
    events := st.events ++ [{ tool_id := st.tool.id, type := "checkout", person := person,
                              when := now, note := "Wydano " ++ date }] }

/-- `tool_return` (`src/app.py` lines 210-218): captures the current holder,
clears `holder` and `checkout_date`, and appends a `return` event naming the
captured holder. -/
def tool_return (st : ToolState) (now : Nat) : ToolState :=
  let person := st.tool.holder
  { tool := { st.tool with holder := "", checkout_date := "" },
    events := st.events ++ [{ tool_id := st.tool.id, type := "return", person := person,
                              when := now, note := "Zwrot" }] }

/-- One mutating request on an existing tool: edit, checkout, or return
(`ret`, since `return` is reserved in Lean). -/
inductive Op where
  | edit (form : List (String × String)) (photo : Option String) (ts : String) (now : Nat)
  | checkout (personForm dateForm today : String) (now : Nat)
  | ret (now : Nat)

/-- Apply one operation to a tool's state. -/
def applyOp (st : ToolState) : Op → ToolState
  | .edit form photo ts now => tool_edit st form photo ts now
  | .checkout p d today now => tool_checkout st p d today now
  | .ret now => tool_return st now

/-- Apply a sequence of operations, oldest first. -/
def applyOps (st : ToolState) (ops : List Op) : ToolState :=
  ops.foldl applyOp st

/-- The availability invariant of the specification: `holder` is empty iff
`checkout_date` is empty. -/
def availInv (t : Tool) : Prop :=
  t.holder = "" ↔ t.checkout_date = ""

/-- An operation as issued through the real UI: the checkout form requires a
person (the HTML `required` attribute), and `strftime('%Y-%m-%d')` is never
the empty string. -/
def validOp : Op → Prop
  | .checkout p _ today _ => strip p ≠ "" ∧ today ≠ ""
  | _ => True

/-- SQL `LIKE` pattern matching, as applied by SQLite to the already
case-folded pattern and subject: `%` matches any (possibly empty) substring,
`_` matches exactly one character, every other pattern character matches
itself.  The `%` case succeeds iff the rest of the pattern matches some
suffix of the subject (`List.tails s` enumerates exactly the suffixes). -/
def likeMatch : List Char → List Char → Bool
  | [], s => s.isEmpty
  | p :: ps, s =>
    if p = '%' then s.tails.any (fun s2 => likeMatch ps s2)
    else match s with
      | [] => false
      | c :: s2 => (if p = '_' then true else p == c) && likeMatch ps s2

/-- Characters of a string after the ASCII case folding SQLite applies
inside `LIKE`. -/
def lowerChars (s : String) : List Char :=
  s.toList.map Char.toLower

/-- SQLAlchemy's `column.ilike(pattern)`: case-insensitive SQL `LIKE`. -/
def ilike (s pattern : String) : Bool :=
  likeMatch (lowerChars pattern) (lowerChars s)

/-- The free-text condition of `index`:
`or_(Tool.name.ilike(like), Tool.description.ilike(like), Tool.serial_no.ilike(like))`
with `like = f"%{q}%"`. -/
def matchesQ (q : String) (t : Tool) : Bool :=
  ilike t.name ("%" ++ q ++ "%") || ilike t.description ("%" ++ q ++ "%") ||
    ilike t.serial_no ("%" ++ q ++ "%")

/-- The row filter built up by `index` from the stripped query arguments:
each filter is applied only when its argument is nonempty, and successive
`filter` calls conjoin. -/
def indexFilter (q cat holder : String) (t : Tool) : Bool :=
  ((q == "") || matchesQ q t) && ((cat == "") || t.category == cat) &&
    ((holder == "") || t.holder == holder)

/-- `ORDER BY created_at DESC`: later-created tools first. -/
def createdDesc (a b : Tool) : Prop :=
  b.created_at ≤ a.created_at

instance : DecidableRel createdDesc := fun a b => Nat.decLe b.created_at a.created_at

instance : IsTotal Tool createdDesc :=
  ⟨fun a b => Nat.le_total b.created_at a.created_at⟩

instance : IsTrans Tool createdDesc :=
  ⟨fun _ _ _ h1 h2 => Nat.le_trans h2 h1⟩

/-- The `index` listing (`src/app.py` lines 109-125): strip the three query
arguments, filter the stored tools, and order by creation time descending.
`ORDER BY` fixes only the key order; insertion sort realises one such
ordering. -/
def index (qArg catArg holderArg : String) (tools : List Tool) : List Tool :=
  let q := strip qArg
  let cat := strip catArg
  let holder := strip holderArg
  List.insertionSort createdDesc (tools.filter (fun t => indexFilter q cat holder t))

/-- Case-insensitive substring occurrence, the reading of "free text appears
as a case-insensitive substring" used by the specification. -/
def textSubstr (q s : String) : Prop :=
  lowerChars q <:+: lowerChars s

instance (q s : String) : Decidable (textSubstr q s) :=
  List.decidableInfix (lowerChars q) (lowerChars s)

/-- The specification's reading of the combined inventory filter: free text
as a case-insensitive substring of name, description, or serial number;
exact category match; exact holder match; each applied only when supplied
(nonempty), conjoined. -/
def specMatch (q cat holder : String) (t : Tool) : Prop :=
  (q = "" ∨ textSubstr q t.name ∨ textSubstr q t.description ∨ textSubstr q t.serial_no) ∧
    (cat = "" ∨ t.category = cat) ∧ (holder = "" ∨ t.holder = holder)

instance (q cat holder : String) (t : Tool) : Decidable (specMatch q cat holder t) :=
  inferInstanceAs (Decidable (_ ∧ _ ∧ _))

/-- A string free of the SQL `LIKE` wildcard characters. -/
def wildcardFree (s : String) : Prop :=
  ∀ c ∈ s.toList, c ≠ '%' ∧ c ≠ '_'

instance (s : String) : Decidable (wildcardFree s) :=
  List.decidableBAll (fun c => c ≠ '%' ∧ c ≠ '_') s.toList

/-- Whether the submitted form binds `key` (`key in request.form`). -/
def hasField (form : List (String × String)) (key : String) : Prop :=
  (form.find? (fun kv => kv.fst == key)).isSome = true

instance (form : List (String × String)) (key : String) : Decidable (hasField form key) :=
  inferInstanceAs (Decidable (_ = true))

/-- A sample state: tool 1 "Drill" created at time 0, used as concrete input
by several witnesses. -/
def drillNew : ToolState :=
  tool_new [("name", "Drill")] none "" 1 0

/-- The sample tool checked out to Alice on 2024-01-01. -/
def drillCheckedOut : ToolState :=
  tool_checkout drillNew "Alice" "2024-01-01" "2024-01-01" 1

/-! ## Theorems -/

/-- Helper: `tool_edit` never touches `holder` or `checkout_date`. -/
theorem tool_edit_keeps_holder (st : ToolState) (form : List (String × String))
    (photo : Option String) (ts : String) (now : Nat) :
    (tool_edit st form photo ts now).tool.holder = st.tool.holder ∧
    (tool_edit st form photo ts now).tool.checkout_date = st.tool.checkout_date := by
  simp only [tool_edit]
  cases photoUpload photo ts <;> exact ⟨rfl, rfl⟩

/-- Helper: a single valid operation preserves the availability invariant. -/
theorem availInv_applyOp {st : ToolState} {op : Op} (hv : validOp op)
    (h : availInv st.tool) : availInv (applyOp st op).tool := by
  cases op with
  | edit form photo ts now =>
    have e := tool_edit_keeps_holder st form photo ts now
    unfold availInv at h ⊢
    rw [show applyOp st (Op.edit form photo ts now) = tool_edit st form photo ts now from rfl,
      e.1, e.2]
    exact h
  | checkout p d today now =>
    obtain ⟨hp, ht⟩ := hv
    constructor
    · intro hh
      exact absurd hh hp
    · intro hd
      exfalso
      by_cases hsd : strip d = ""
      · rw [show (applyOp st (Op.checkout p d today now)).tool.checkout_date
            = (if strip d = "" then today else strip d) from rfl, if_pos hsd] at hd
        exact ht hd
      · rw [show (applyOp st (Op.checkout p d today now)).tool.checkout_date
            = (if strip d = "" then today else strip d) from rfl, if_neg hsd] at hd
        exact hsd hd
  | ret now =>
    exact ⟨fun _ => rfl, fun _ => rfl⟩

/-- Helper: a sequence of valid operations preserves the availability
invariant. -/
theorem availInv_applyOps {st : ToolState} {ops : List Op}
    (hv : ∀ op ∈ ops, validOp op) (h : availInv st.tool) :
    availInv (applyOps st ops).tool := by
  induction ops generalizing st with
  | nil => exact h
  | cons op rest ih =>
    exact ih (fun o ho => hv o (List.mem_cons_of_mem _ ho))
      (availInv_applyOp (hv op (List.mem_cons_self _ _)) h)

/-- C1, counterexample to the claim as stated: checking out a freshly created
tool with an empty person field (the server strips but never validates it)
leaves `holder` empty while `checkout_date` becomes the resolved current
date, so `holder = "" ↔ checkout_date = ""` fails after this sequence of
operations. -/
theorem C1_counterexample :
    (applyOp (tool_new [("name", "Drill")] none "" 1 0)
      (Op.checkout "" "" "2024-01-01" 1)).tool.holder = "" ∧
    (applyOp (tool_new [("name", "Drill")] none "" 1 0)
      (Op.checkout "" "" "2024-01-01" 1)).tool.checkout_date = "2024-01-01" := by
  decide

/-- C1 (amended): for every tool created by `tool_new` and every sequence of
edit/checkout/return operations in which each checkout supplies a person that
is nonempty after stripping (and a nonempty current-date string, as
`strftime('%Y-%m-%d')` always is), `holder` is the empty string iff
`checkout_date` is the empty string. -/
theorem C1_invariant_valid_ops (form : List (String × String)) (photo : Option String)
    (ts : String) (toolId now : Nat) (ops : List Op) (hv : ∀ op ∈ ops, validOp op) :
    availInv (applyOps (tool_new form photo ts toolId now) ops).tool :=
  availInv_applyOps hv ⟨fun _ => rfl, fun _ => rfl⟩

/-- Witness for `C1_invariant_valid_ops` at a concrete create/checkout/return
run. -/
theorem C1_invariant_valid_ops_witness :
    availInv (applyOps (tool_new [("name", "Drill")] none "" 1 0)
      [Op.checkout "Alice" "" "2024-01-01" 1, Op.ret 2]).tool :=
  C1_invariant_valid_ops [("name", "Drill")] none "" 1 0
    [Op.checkout "Alice" "" "2024-01-01" 1, Op.ret 2]
    (by
      intro op hop
      simp only [List.mem_cons, List.not_mem_nil, or_false] at hop
      rcases hop with rfl | rfl
      · exact ⟨by decide, by decide⟩
      · trivial)

/-- C2, counterexample to the claim as stated: `tool_new` inserts the tool
with every unset column at its default, and no code in the repository ever
generates a QR image or assigns `qr_path`, so a freshly created tool has an
empty `qr_path`. -/
theorem C2_counterexample :
    (tool_new [("name", "Drill")] none "" 1 0).tool.qr_path = "" := by
  decide

/-- C2 (amended): creating a tool does not synthesize a QR image; the tool's
`qr_path` is the empty string after creation, for every create request. -/
theorem C2_qr_path_empty (form : List (String × String)) (photo : Option String)
    (ts : String) (toolId now : Nat) :
    (tool_new form photo ts toolId now).tool.qr_path = "" :=
  rfl

/-- C3: for every tool state, `tool_checkout` sets `holder` to the stripped
person, sets `checkout_date` to the resolved date (the stripped
caller-supplied date if nonempty, otherwise the current date), and appends
exactly one `checkout` event carrying that person and, in its note, the
resolved date.  The statement holds for every prior state, in particular for
an already-checked-out tool, whose holder is simply overwritten with no
conflict error. -/
theorem C3_checkout_behaviour (st : ToolState) (personForm dateForm today : String)
    (now : Nat) :
    (tool_checkout st personForm dateForm today now).tool.holder = strip personForm ∧
    (tool_checkout st personForm dateForm today now).tool.checkout_date =
      (if strip dateForm = "" then today else strip dateForm) ∧
    (tool_checkout st personForm dateForm today now).events =
      st.events ++ [{ tool_id := st.tool.id, type := "checkout", person := strip personForm,
                      when := now,
                      note := "Wydano " ++
                        (if strip dateForm = "" then today else strip dateForm) }] :=
  ⟨rfl, rfl, rfl⟩

/-- C10: regardless of the create request's form fields and upload, a newly
created tool is available: its `holder` and `checkout_date` are the empty
string. -/
theorem C10_new_tool_available (form : List (String × String)) (photo : Option String)
    (ts : String) (toolId now : Nat) :
    (tool_new form photo ts toolId now).tool.holder = "" ∧
    (tool_new form photo ts toolId now).tool.checkout_date = "" :=
  ⟨rfl, rfl⟩

/-- C4: for every tool state whose holder is nonempty (the CheckedOut state),
`tool_return` clears `holder` and `checkout_date` and appends exactly one
`return` event whose person field is the holder captured before clearing. -/
theorem C4_return_behaviour (st : ToolState) (now : Nat) (h : st.tool.holder ≠ "") :
    (tool_return st now).tool.holder = "" ∧
    (tool_return st now).tool.checkout_date = "" ∧
    (tool_return st now).events =
      st.events ++ [{ tool_id := st.tool.id, type := "return", person := st.tool.holder,
                      when := now, note := "Zwrot" }] :=
  ⟨rfl, rfl, rfl⟩

/-- Witness for `C4_return_behaviour` on the checked-out sample tool. -/
theorem C4_return_behaviour_witness :
    drillCheckedOut.tool.holder ≠ "" ∧
    (tool_return drillCheckedOut 2).tool.holder = "" ∧
    (tool_return drillCheckedOut 2).tool.checkout_date = "" :=
  ⟨by decide, (C4_return_behaviour drillCheckedOut 2 (by decide)).1,
    (C4_return_behaviour drillCheckedOut 2 (by decide)).2.1⟩

/-- C5: from the Available state (`holder` and `checkout_date` empty), a
checkout followed by a return restores the tool row exactly: holder and date
are empty again and every other column is untouched. -/
theorem C5_checkout_return_roundtrip (st : ToolState) (p d today : String) (n1 n2 : Nat)
    (h1 : st.tool.holder = "") (h2 : st.tool.checkout_date = "") :
    (tool_return (tool_checkout st p d today n1) n2).tool = st.tool :=
  calc (tool_return (tool_checkout st p d today n1) n2).tool
      = { st.tool with holder := "", checkout_date := "" } := rfl
    _ = { st.tool with holder := st.tool.holder,
                       checkout_date := st.tool.checkout_date } := by rw [h1, h2]
    _ = st.tool := rfl

/-- Witness for `C5_checkout_return_roundtrip` on the fresh sample tool. -/
theorem C5_checkout_return_roundtrip_witness :
    drillNew.tool.holder = "" ∧ drillNew.tool.checkout_date = "" ∧
    (tool_return (tool_checkout drillNew "Alice" "" "2024-01-01" 1) 2).tool = drillNew.tool :=
  ⟨by decide, by decide,
    C5_checkout_return_roundtrip drillNew "Alice" "" "2024-01-01" 1 2 (by decide) (by decide)⟩

/-- C7: an upload whose filename fails `allowed_file` is silently ignored by
both handlers: `tool_new` still creates the tool with an empty `photo_path`,
`tool_edit` still applies the edit with `photo_path` unchanged, and neither
raises an error (both are total functions of the request). -/
theorem C7_disallowed_upload_ignored (st : ToolState) (form : List (String × String))
    (f ts : String) (toolId now : Nat) (h : allowed_file f = false) :
    (tool_new form (some f) ts toolId now).tool.photo_path = "" ∧
    (tool_edit st form (some f) ts now).tool.photo_path = st.tool.photo_path := by
  have hp : photoUpload (some f) ts = none := by
    simp [photoUpload, h]
  constructor
  · simp [tool_new, hp]
  · simp [tool_edit, hp]

/-- Witness for `C7_disallowed_upload_ignored` with a `.exe` upload. -/
theorem C7_disallowed_upload_ignored_witness :
    allowed_file "malware.exe" = false ∧
    (tool_new [("name", "Drill")] (some "malware.exe") "" 1 0).tool.photo_path = "" ∧
    (tool_edit drillNew [] (some "malware.exe") "" 3).tool.photo_path =
      drillNew.tool.photo_path :=
  ⟨by decide,
    (C7_disallowed_upload_ignored drillNew [("name", "Drill")] "malware.exe" "" 1 0
      (by decide)).1,
    (C7_disallowed_upload_ignored drillNew [] "malware.exe" "" 1 3 (by decide)).2⟩

/-- C8: invoking return on an available tool (holder and date empty) succeeds,
leaves the tool row unchanged, and still appends one `return` event whose
person field is the empty string. -/
theorem C8_return_when_available (st : ToolState) (now : Nat)
    (h1 : st.tool.holder = "") (h2 : st.tool.checkout_date = "") :
    (tool_return st now).tool = st.tool ∧
    (tool_return st now).events =
      st.events ++ [{ tool_id := st.tool.id, type := "return", person := "", when := now,
                      note := "Zwrot" }] := by
  constructor
  · calc (tool_return st now).tool
        = { st.tool with holder := "", checkout_date := "" } := rfl
      _ = { st.tool with holder := st.tool.holder,
                         checkout_date := st.tool.checkout_date } := by rw [h1, h2]
      _ = st.tool := rfl
  · rw [show (tool_return st now).events
        = st.events ++ [{ tool_id := st.tool.id, type := "return", person := st.tool.holder,
                          when := now, note := "Zwrot" }] from rfl, h1]

/-- Witness for `C8_return_when_available` on the fresh sample tool. -/
theorem C8_return_when_available_witness :
    drillNew.tool.holder = "" ∧ drillNew.tool.checkout_date = "" ∧
    (tool_return drillNew 2).tool = drillNew.tool :=
  ⟨by decide, by decide, (C8_return_when_available drillNew 2 (by decide) (by decide)).1⟩

/-- Helper: a key absent from the form makes `formGet` return its default. -/
theorem formGet_of_absent {form : List (String × String)} {key : String}
    (h : ¬ hasField form key) (dflt : String) : formGet form key dflt = dflt := by
  unfold hasField at h
  unfold formGet
  cases hf : form.find? (fun kv => kv.fst == key) with
  | none => rfl
  | some kv => exact absurd (by rw [hf]; rfl) h

/-- Helper: each text field after `tool_edit` is the form value with the old
value as default. -/
theorem tool_edit_fields (st : ToolState) (form : List (String × String))
    (photo : Option String) (ts : String) (now : Nat) :
    (tool_edit st form photo ts now).tool.name = formGet form "name" st.tool.name ∧
    (tool_edit st form photo ts now).tool.description =
      formGet form "description" st.tool.description ∧
    (tool_edit st form photo ts now).tool.category =
      formGet form "category" st.tool.category ∧
    (tool_edit st form photo ts now).tool.serial_no =
      formGet form "serial_no" st.tool.serial_no := by
  simp only [tool_edit]
  cases photoUpload photo ts <;> exact ⟨rfl, rfl, rfl, rfl⟩

/-- C9: in an edit request, each of the four editable text fields that is
absent from the submitted form keeps its previous value; a present field is
overwritten with the submitted value (the `formGet`-with-default shape of
`tool_edit`, proved in `tool_edit_fields`). -/
theorem C9_edit_frame (st : ToolState) (form : List (String × String))
    (photo : Option String) (ts : String) (now : Nat) :
    (¬ hasField form "name" → (tool_edit st form photo ts now).tool.name = st.tool.name) ∧
    (¬ hasField form "description" →
      (tool_edit st form photo ts now).tool.description = st.tool.description) ∧
    (¬ hasField form "category" →
      (tool_edit st form photo ts now).tool.category = st.tool.category) ∧
    (¬ hasField form "serial_no" →
      (tool_edit st form photo ts now).tool.serial_no = st.tool.serial_no) := by
  have hf := tool_edit_fields st form photo ts now
  exact ⟨fun h => by rw [hf.1, formGet_of_absent h],
    fun h => by rw [hf.2.1, formGet_of_absent h],
    fun h => by rw [hf.2.2.1, formGet_of_absent h],
    fun h => by rw [hf.2.2.2, formGet_of_absent h]⟩

/-- Witness for `C9_edit_frame`: an edit form carrying only a description
leaves the name unchanged. -/
theorem C9_edit_frame_witness :
    ¬ hasField [("description", "new")] "name" ∧
    (tool_edit drillNew [("description", "new")] none "" 3).tool.name = drillNew.tool.name :=
  ⟨by decide, (C9_edit_frame drillNew [("description", "new")] none "" 3).1 (by decide)⟩

/-- Helper: a valid scalar value round-trips through `Char.ofNat`. -/
theorem char_toNat_ofNat {n : Nat} (h : n.isValidChar) : (Char.ofNat n).toNat = n := by
  unfold Char.ofNat
  rw [dif_pos h]
  rfl

/-- Helper: `Char.toLower` only moves basic latin capitals (codes 65-90) into
codes 97-122, so any character outside 97-122 is hit by `toLower` only from
itself. -/
theorem toLower_fix_nonletter {c d : Char} (hd : d.toNat < 97 ∨ 122 < d.toNat)
    (h : c.toLower = d) : c = d := by
  simp only [Char.toLower] at h
  split at h
  · exfalso
    next hn =>
      obtain ⟨h1, h2⟩ := hn
      have hv : (c.toNat + 32).isValidChar := Or.inl (by omega)
      have he := congrArg Char.toNat h
      rw [char_toNat_ofNat hv] at he
      omega
  · exact h

/-- Helper: ASCII lower-casing never introduces a `LIKE` wildcard character. -/
theorem wildcardFree_lower {s : String} (h : wildcardFree s) :
    ∀ c ∈ lowerChars s, c ≠ '%' ∧ c ≠ '_' := by
  intro c hc
  rw [lowerChars, List.mem_map] at hc
  obtain ⟨a, ha, rfl⟩ := hc
  obtain ⟨h1, h2⟩ := h a ha
  exact ⟨fun hl => h1 (toLower_fix_nonletter (by decide) hl),
    fun hl => h2 (toLower_fix_nonletter (by decide) hl)⟩

/-- Helper: the one-step unfolding of `likeMatch` on a nonempty pattern. -/
theorem likeMatch_cons (p : Char) (ps s : List Char) :
    likeMatch (p :: ps) s =
      if p = '%' then s.tails.any (fun s2 => likeMatch ps s2)
      else match s with
        | [] => false
        | c :: s2 => (if p = '_' then true else p == c) && likeMatch ps s2 := rfl

/-- Helper: a pattern starting with `%` matches a subject iff the remaining
pattern matches one of its suffixes. -/
theorem likeMatch_pct (ps s : List Char) :
    likeMatch ('%' :: ps) s = true ↔ ∃ s2, s2 <:+ s ∧ likeMatch ps s2 = true := by
  rw [likeMatch_cons, if_pos rfl, List.any_eq_true]
  constructor
  · rintro ⟨s2, hmem, hm⟩
    exact ⟨s2, (List.mem_tails s2 s).mp hmem, hm⟩
  · rintro ⟨s2, hsuf, hm⟩
    exact ⟨s2, (List.mem_tails s2 s).mpr hsuf, hm⟩

/-- Helper: a wildcard-free pattern followed by a single `%` matches a subject
iff the pattern is a prefix of the subject. -/
theorem likeMatch_lit_pct (p : List Char) :
    (∀ c ∈ p, c ≠ '%' ∧ c ≠ '_') → ∀ s, (likeMatch (p ++ ['%']) s = true ↔ p <+: s) := by
  induction p with
  | nil =>
    intro _ s
    rw [List.nil_append]
    constructor
    · intro _
      exact List.nil_prefix
    · intro _
      rw [likeMatch_pct]
      exact ⟨[], List.nil_suffix, rfl⟩
  | cons a p ih =>
    intro hw s
    have ha := hw a (List.mem_cons_self a p)
    have ihs := ih (fun c hc => hw c (List.mem_cons_of_mem a hc))
    cases s with
    | nil =>
      rw [List.cons_append, likeMatch_cons, if_neg ha.1]
      simp only [List.prefix_nil]
      exact ⟨fun hf => absurd hf (by decide), fun hc => absurd hc (by simp)⟩
    | cons c s =>
      rw [List.cons_append, likeMatch_cons, if_neg ha.1]
      show ((if a = '_' then true else a == c) && likeMatch (p ++ ['%']) s) = true ↔
        a :: p <+: c :: s
      rw [if_neg ha.2, Bool.and_eq_true, beq_iff_eq, ihs s, List.cons_prefix_cons]

/-- Helper: the pattern `%p%` with `p` wildcard-free matches a subject iff `p`
occurs inside it. -/
theorem likeMatch_wrapped (p : List Char) (hw : ∀ c ∈ p, c ≠ '%' ∧ c ≠ '_') (s : List Char) :
    likeMatch ('%' :: (p ++ ['%'])) s = true ↔ p <:+: s := by
  rw [likeMatch_pct]
  constructor
  · rintro ⟨s2, hsuf, hm⟩
    exact List.infix_iff_prefix_suffix.mpr ⟨s2, (likeMatch_lit_pct p hw s2).mp hm, hsuf⟩
  · intro h
    obtain ⟨t, hp, hs⟩ := List.infix_iff_prefix_suffix.mp h
    exact ⟨t, hs, (likeMatch_lit_pct p hw t).mpr hp⟩

/-- Helper: for a wildcard-free query, `ilike` against `f"%{q}%"` is exactly
case-insensitive substring occurrence. -/
theorem ilike_wrap {q : String} (hq : wildcardFree q) (s : String) :
    ilike s ("%" ++ q ++ "%") = true ↔ textSubstr q s := by
  unfold ilike textSubstr
  have e : lowerChars ("%" ++ q ++ "%") = '%' :: (lowerChars q ++ ['%']) := by
    simp [lowerChars, String.toList, List.map_append]
  rw [e, likeMatch_wrapped (lowerChars q) (wildcardFree_lower hq)]

/-- Helper: a Bool agreeing with a decidable proposition is its `decide`. -/
theorem bool_eq_decide {a : Bool} {p : Prop} [Decidable p] (h : a = true ↔ p) :
    a = decide p := by
  by_cases hp : p
  · rw [decide_eq_true hp]
    exact h.mpr hp
  · rw [decide_eq_false hp]
    cases ha : a with
    | false => rfl
    | true => exact absurd (h.mp ha) hp

/-- Helper: for a wildcard-free query, the row filter built by `index` agrees
pointwise with the specification's combined filter. -/
theorem indexFilter_eq_specMatch (q cat holder : String) (hq : wildcardFree q) (t : Tool) :
    indexFilter q cat holder t = true ↔ specMatch q cat holder t := by
  unfold indexFilter specMatch matchesQ
  rw [Bool.and_eq_true, Bool.and_eq_true, Bool.or_eq_true, Bool.or_eq_true, Bool.or_eq_true,
    Bool.or_eq_true, Bool.or_eq_true, beq_iff_eq, beq_iff_eq, beq_iff_eq, beq_iff_eq,
    beq_iff_eq, ilike_wrap hq, ilike_wrap hq, ilike_wrap hq]
  tauto

/-- C6, counterexample to the claim as stated: the free-text argument is
interpolated into a SQL `LIKE` pattern without escaping, so a query
containing a wildcard is not substring matching.  With the stored tool
"Drill" and free text `%`, the listing returns the tool although `%` does not
occur (case-insensitively) in its name, description, or serial number. -/
theorem C6_counterexample :
    index "%" "" "" [drillNew.tool] = [drillNew.tool] ∧
    ¬ specMatch (strip "%") (strip "") (strip "") drillNew.tool := by
  constructor
  · decide
  · decide

/-- C6 (amended): for free text containing no SQL `LIKE` wildcard (`%` or
`_`), the inventory listing returns exactly the tools (as a multiset) that
satisfy all supplied filters combined by AND — free text as a
case-insensitive substring of name, description, or serial number, exact
category, exact holder — and the result is ordered by creation time, most
recent first.  (With a wildcard in the free text, the code instead performs
`LIKE` pattern matching, per `C6_counterexample`.) -/
theorem C6_inventory_filter (tools : List Tool) (qArg catArg holderArg : String)
    (hq : wildcardFree (strip qArg)) :
    List.Perm (index qArg catArg holderArg tools)
      (tools.filter (fun t =>
        decide (specMatch (strip qArg) (strip catArg) (strip holderArg) t))) ∧
    List.Sorted createdDesc (index qArg catArg holderArg tools) := by
  constructor
  · have e : tools.filter
          (fun t => indexFilter (strip qArg) (strip catArg) (strip holderArg) t)
        = tools.filter (fun t =>
            decide (specMatch (strip qArg) (strip catArg) (strip holderArg) t)) :=
      List.filter_congr (fun t _ =>
        bool_eq_decide (indexFilter_eq_specMatch (strip qArg) (strip catArg)
          (strip holderArg) hq t))
    have e2 : index qArg catArg holderArg tools
        = List.insertionSort createdDesc (tools.filter (fun t =>
            decide (specMatch (strip qArg) (strip catArg) (strip holderArg) t))) := by
      show List.insertionSort createdDesc (tools.filter
          (fun t => indexFilter (strip qArg) (strip catArg) (strip holderArg) t)) = _
      rw [e]
    rw [e2]
    exact List.perm_insertionSort createdDesc _
  · exact List.sorted_insertionSort createdDesc _

/-- Witness for `C6_inventory_filter` on a one-tool store and the wildcard-free
query "dri". -/
theorem C6_inventory_filter_witness :
    wildcardFree (strip "dri") ∧
    (List.Perm (index "dri" "" "" [drillNew.tool])
      ([drillNew.tool].filter (fun t =>
        decide (specMatch (strip "dri") (strip "") (strip "") t))) ∧
     List.Sorted createdDesc (index "dri" "" "" [drillNew.tool])) :=
  ⟨by decide, C6_inventory_filter [drillNew.tool] "dri" "" "" (by decide)⟩

end ToolApp
